import Mathlib

/-!
Verification development for the `hardfall2026` video-analysis web application.

The embedding below follows `core/models.py` and `core/views.py`:

* the relational data model (`Event`, `Video`, `Action`, `Analysis`, `Mark`)
  becomes Lean structures, with a `DB` record holding the table contents and
  the auto-increment counters of the store;
* `Mark.points` (models.py) becomes a pure Lean function over the store;
* `_validate_video_file` (views.py) becomes a function on byte lists
  (bytes are `Nat` values; Python slices become `drop`/`take`);
* `analysis_save_marks` (views.py) becomes `saveMarks`, a state-passing
  function `DB → request → response × DB`.  Python's `sorted`, a stable
  sort by key, is modelled by `List.insertionSort` (any stable sort sorted
  by the same key computes the same list, so this is exact);
* `video_upload` (views.py) becomes `video_upload`; the SHA-256 digest,
  a library primitive (`hashlib`), is passed in as a function parameter.

Fixed-point `DecimalField(decimal_places=4)` times are modelled as integer
counts of ten-thousandths of a second.
-/

namespace Hardfall

/-- Calendar date of an `Event` (Django `DateField`). -/
structure Date where
  year : Nat
  month : Nat
  day : Nat
deriving Repr, DecidableEq

/-- `Event` row (models.py): name, date.  Timestamps are irrelevant here. -/
structure Event where
  id : Nat
  name : String
  date : Date
deriving Repr, DecidableEq

/-- `Video` row (models.py): display `filename` vs storage `file_path`. -/
structure Video where
  id : Nat
  event_id : Nat
  filename : String
  file_path : String
  file_size_bytes : Nat
deriving Repr, DecidableEq

/-- `Action` row (models.py): rubric entry with an integer point value. -/
structure Action where
  id : Nat
  code : String
  name : String
  points : Int
  ordering : Int
deriving Repr, DecidableEq

/-- `Analysis` row (models.py). -/
structure Analysis where
  id : Nat
  event_id : Nat
  video_id : Nat
  team : String
  matchLabel : String
deriving Repr, DecidableEq

/-- `Mark` row (models.py): a timestamped scored occurrence of an `Action`.
`time_seconds` and `delta_seconds` are `DecimalField(decimal_places=4)`
values: fixed-point numbers, represented as integer counts of ten-thousandths
of a second (ordering and subtraction are value-faithful). -/
structure Mark where
  id : Nat
  analysis_id : Nat
  action_id : Nat
  time_seconds : Int
  delta_seconds : Int
  is_failure : Bool
  count : Nat
deriving Repr, DecidableEq

/-- The relational store: table contents plus auto-increment id counters. -/
structure DB where
  events : List Event
  videos : List Video
  actions : List Action
  analyses : List Analysis
  marks : List Mark
  next_video_id : Nat
  next_mark_id : Nat
deriving Repr, DecidableEq

/-- Foreign-key dereference `mark.action` : look up an `Action` row by id. -/
def actionOf (db : DB) (action_id : Nat) : Option Action :=
  db.actions.find? (fun a => a.id == action_id)

/-- `Analysis.objects.get(pk=...)` : look up an `Analysis` row by id. -/
def analysisOf (db : DB) (aid : Nat) : Option Analysis :=
  db.analyses.find? (fun a => a.id == aid)

/-- `Event.objects.get(pk=...)` : look up an `Event` row by id. -/
def eventOf (db : DB) (eid : Nat) : Option Event :=
  db.events.find? (fun e => e.id == eid)

/-- `Mark.points` (models.py, lines 72-77): failures score 0, otherwise the
referenced action's point value times the mark's count.  The foreign key
`self.action` always resolves in reachable stores; the `none` branch is a
total-function default. -/
def Mark.points (db : DB) (m : Mark) : Int :=
  if m.is_failure then 0
  else
    match actionOf db m.action_id with
    | some a => a.points * (m.count : Int)
    | none => 0

/-- `analysis.marks.all()` : the marks of one analysis, in insertion order. -/
def marksOf (db : DB) (aid : Nat) : List Mark :=
  db.marks.filter (fun m => m.analysis_id == aid)

/-- Sum of `Mark.points` over one analysis's marks (read-time score total). -/
def totalPoints (db : DB) (aid : Nat) : Int :=
  ((marksOf db aid).map (Mark.points db)).sum

/-! ### Video content sniffing (`_validate_video_file`, views.py lines 29-61) -/

/-- ASCII bytes of the ISO-BMFF box tag `ftyp`. -/
def ftypBytes : List Nat := [0x66, 0x74, 0x79, 0x70]

/-- ASCII bytes of the QuickTime brand `qt  `. -/
def qtBrand : List Nat := [0x71, 0x74, 0x20, 0x20]

/-- EBML magic (WebM/Matroska). -/
def ebmlMagic : List Nat := [0x1a, 0x45, 0xdf, 0xa3]

/-- ASCII bytes of `RIFF`. -/
def riffMagic : List Nat := [0x52, 0x49, 0x46, 0x46]

/-- ASCII bytes of `AVI `. -/
def aviTag : List Nat := [0x41, 0x56, 0x49, 0x20]

/-- MPEG program stream start code. -/
def mpegPS : List Nat := [0x00, 0x00, 0x01, 0xba]

/-- MPEG elementary stream start code. -/
def mpegES : List Nat := [0x00, 0x00, 0x01, 0xb3]

/-- Python slice `l[start:stop]` on byte lists. -/
def slice (l : List Nat) (start stop : Nat) : List Nat :=
  (l.drop start).take (stop - start)

/-- `_validate_video_file` (views.py lines 29-61): magic-byte sniffing.
Returns `(is_valid, detected_extension)`.  The Python loop
`for offset in [4, 8]` is unrolled into the two `ftyp` branches, keeping the
guard `len(header) > offset + 4` of the source. -/
def _validate_video_file (file_content : List Nat) : Bool × Option String :=
  if file_content.length < 12 then (false, none)
  else
    let header := file_content.take 32
    if header.length > 4 + 4 ∧ slice header 4 8 = ftypBytes then
      (true, some (if slice header 8 12 = qtBrand then "mov" else "mp4"))
    else if header.length > 8 + 4 ∧ slice header 8 12 = ftypBytes then
      (true, some (if slice header 12 16 = qtBrand then "mov" else "mp4"))
    else if slice header 0 4 = ebmlMagic then
      (true, some "webm")
    else if slice header 0 4 = riffMagic ∧ slice header 8 12 = aviTag then
      (true, some "avi")
    else if slice header 0 4 = mpegPS ∨ slice header 0 4 = mpegES then
      (true, some "mpg")
    else
      (false, none)

/-! ### The mark replacement protocol (`analysis_save_marks`, views.py 158-212) -/

/-- One submitted mark from the JSON body: `is_failure` and `count` are
optional keys (`dict.get` with defaults `False` and `1`). -/
structure MarkSubmission where
  action_id : Nat
  time_seconds : Int
  is_failure : Option Bool
  count : Option Nat
deriving Repr, DecidableEq

/-- The sort key of `sorted(marks_data, key=lambda m: m['time_seconds'])`. -/
def subLE (a b : MarkSubmission) : Prop :=
  a.time_seconds ≤ b.time_seconds

instance : DecidableRel subLE := fun a b =>
  inferInstanceAs (Decidable (a.time_seconds ≤ b.time_seconds))

instance : IsTotal MarkSubmission subLE :=
  ⟨fun a b => le_total a.time_seconds b.time_seconds⟩

instance : IsTrans MarkSubmission subLE :=
  ⟨fun _ _ _ => le_trans⟩

/-- The ordering of `order_by('time_seconds')` on stored marks. -/
def markLE (a b : Mark) : Prop :=
  a.time_seconds ≤ b.time_seconds

instance : DecidableRel markLE := fun a b =>
  inferInstanceAs (Decidable (a.time_seconds ≤ b.time_seconds))

instance : IsTotal Mark markLE :=
  ⟨fun a b => le_total a.time_seconds b.time_seconds⟩

instance : IsTrans Mark markLE :=
  ⟨fun _ _ _ => le_trans⟩

/-- Delta computation (views.py 176-179): walk the sorted list threading
`prev_time`, pairing each submission with
`delta_seconds = time_seconds - prev_time`. -/
def computeDeltas (prev : Int) : List MarkSubmission → List (MarkSubmission × Int)
  | [] => []
  | m :: rest => (m, m.time_seconds - prev) :: computeDeltas m.time_seconds rest

/-- One `Mark(...)` constructor call (views.py 186-193), with the row id the
store will assign at insertion. -/
def mkMark (aid mid : Nat) (md : MarkSubmission × Int) : Mark :=
  { id := mid
    analysis_id := aid
    action_id := md.1.action_id
    time_seconds := md.1.time_seconds
    delta_seconds := md.2
    is_failure := md.1.is_failure.getD false
    count := md.1.count.getD 1 }

/-- `Mark.objects.bulk_create(new_marks)`: rows are inserted in list order
with consecutive auto-increment ids starting at `start`. -/
def bulkCreate (aid start : Nat) : List (MarkSubmission × Int) → List Mark
  | [] => []
  | md :: rest => mkMark aid start md :: bulkCreate aid (start + 1) rest

/-- One element of the marks payload (views.py 199-210 and 110-121). -/
structure MarkOut where
  id : Nat
  action_id : Nat
  action_code : String
  time_seconds : Int
  delta_seconds : Int
  is_failure : Bool
  count : Nat
deriving Repr, DecidableEq

/-- Serialize one stored mark, joined with its action's code. -/
def markOut (db : DB) (m : Mark) : MarkOut :=
  { id := m.id
    action_id := m.action_id
    action_code := ((actionOf db m.action_id).map Action.code).getD ""
    time_seconds := m.time_seconds
    delta_seconds := m.delta_seconds
    is_failure := m.is_failure
    count := m.count }

/-- `analysis.marks.select_related('action').order_by('time_seconds')`
serialized (views.py 199-210; the same query renders analysis_detail,
views.py 110-121).  `order_by` on the stored rows is a stable sort by time
over insertion order. -/
def viewMarks (db : DB) (aid : Nat) : List MarkOut :=
  (List.insertionSort markLE (marksOf db aid)).map (markOut db)

/-- `{m['action_id'] for m in marks_data}` (views.py 169). -/
def submittedActionIds (marks_data : List MarkSubmission) : Finset Nat :=
  (marks_data.map (fun m => m.action_id)).toFinset

/-- `set(Action.objects.filter(id__in=action_ids).values_list('id', flat=True))`
(views.py 170). -/
def existingActionIds (db : DB) (ids : Finset Nat) : Finset Nat :=
  ((db.actions.filter (fun a => decide (a.id ∈ ids))).map (fun a => a.id)).toFinset

/-- The request body of the save-marks endpoint after `json.loads` and
`data.get('marks', [])` (views.py 162-166): a parse failure, a JSON object
without a `marks` key, or an explicit mark list. -/
inductive SaveBody where
  | invalidJson
  | noMarksKey
  | marksList (l : List MarkSubmission)
deriving Repr, DecidableEq

/-- `data.get('marks', [])`: `none` on a parse failure, the default `[]`
when the key is absent. -/
def bodyMarks : SaveBody → Option (List MarkSubmission)
  | .invalidJson => none
  | .noMarksKey => some []
  | .marksList l => some l

/-- Responses of the JSON endpoints. -/
inductive SaveResponse where
  | notFound
  | badRequest (msg : String)
  | ok (marks : List MarkOut)
deriving Repr, DecidableEq

/-- The transactional middle of `analysis_save_marks` (views.py 174-196):
sort by time, compute deltas, delete the analysis's marks, bulk-insert the
new rows. -/
def replaceMarks (db : DB) (aid : Nat) (marks_data : List MarkSubmission) : DB :=
  let sorted_marks := List.insertionSort subLE marks_data
  let withDeltas := computeDeltas 0 sorted_marks
  let new_marks := bulkCreate aid db.next_mark_id withDeltas
  { db with
    marks := db.marks.filter (fun m => !(m.analysis_id == aid)) ++ new_marks
    next_mark_id := db.next_mark_id + new_marks.length }

/-- `analysis_save_marks` (views.py 158-212): look up the analysis, parse
the body, validate the referenced action ids as a set, then atomically
replace the mark set and return the re-read serialized marks. -/
def saveMarks (db : DB) (aid : Nat) (body : SaveBody) : SaveResponse × DB :=
  match analysisOf db aid with
  | none => (.notFound, db)
  | some _ =>
    match bodyMarks body with
    | none => (.badRequest "Invalid JSON", db)
    | some marks_data =>
      if submittedActionIds marks_data ≠ ∅ ∧
          submittedActionIds marks_data ≠ existingActionIds db (submittedActionIds marks_data) then
        (.badRequest "Invalid action ID", db)
      else
        (.ok (viewMarks (replaceMarks db aid marks_data) aid), replaceMarks db aid marks_data)

/-! ### Video upload (`video_upload`, views.py 215-267) -/

/-- `%m` / `%d`: zero-padded two-digit field of `strftime`. -/
def pad2 (n : Nat) : String :=
  if n < 10 then "0" ++ toString n else toString n

/-- `%Y`: zero-padded four-digit year of `strftime`. -/
def pad4 (n : Nat) : String :=
  if n < 10 then "000" ++ toString n
  else if n < 100 then "00" ++ toString n
  else if n < 1000 then "0" ++ toString n
  else toString n

/-- `event.date.strftime('%Y/%m/%d')` (views.py 240). -/
def datePath (d : Date) : String :=
  pad4 d.year ++ "/" ++ pad2 d.month ++ "/" ++ pad2 d.day

/-- Python `str.strip()`: drop whitespace from both ends. -/
def pyStrip (s : String) : String :=
  String.mk (((s.data.dropWhile Char.isWhitespace).reverse.dropWhile
    Char.isWhitespace).reverse)

/-- The multipart upload request: optional file part plus the raw
`filename` form field (stripped inside the handler, as in the source). -/
structure UploadRequest where
  video : Option (List Nat)
  filename : String
deriving Repr, DecidableEq

/-- Responses of the upload endpoint. -/
inductive UploadResponse where
  | notFound
  | badRequest (msg : String)
  | ok (video_id : Nat) (redirect_url : String)
deriving Repr, DecidableEq

/-- `video_upload` (views.py 215-267).  `sha256_hex` is
`hashlib.sha256(...).hexdigest()`, a deterministic library primitive passed
in as a function parameter.  The disk write (views.py 249-250) has no
observable effect on the store beyond the recorded `file_path`. -/
def video_upload (sha256_hex : List Nat → String) (db : DB) (event_id : Nat)
    (req : UploadRequest) : UploadResponse × DB :=
  match eventOf db event_id with
  | none => (.notFound, db)
  | some event =>
    match req.video with
    | none => (.badRequest "No video file provided", db)
    | some file_content =>
      let filename := pyStrip req.filename
      if filename = "" then (.badRequest "No filename provided", db)
      else
        let validated := _validate_video_file file_content
        if validated.1 = false then (.badRequest "Invalid video file format", db)
        else
          let file_hash := sha256_hex file_content
          let date_path := datePath event.date
          let storage_filename := file_hash ++ "." ++ validated.2.getD ""
          let relative_path := date_path ++ "/" ++ storage_filename
          let video : Video :=
            { id := db.next_video_id
              event_id := event_id
              filename := filename
              file_path := relative_path
              file_size_bytes := file_content.length }
          (.ok video.id ("/events/" ++ toString event_id),
            { db with
              videos := db.videos ++ [video]
              next_video_id := db.next_video_id + 1 })

/-! ### Specification predicates on the response payload -/

/-- The payload is ordered by `time_seconds` ascending. -/
def sortedByTime (l : List MarkOut) : Prop :=
  l.Pairwise (fun a b => a.time_seconds ≤ b.time_seconds)

/-- Every mark's delta is its time minus the previous mark's time, the
first measured from `prev`. -/
def deltasFrom : Int → List MarkOut → Prop
  | _, [] => True
  | prev, m :: rest => m.delta_seconds = m.time_seconds - prev ∧ deltasFrom m.time_seconds rest

/-- A returned mark carries exactly one submission's content: same action
reference and time, and the endpoint's defaults applied to the optional
failure flag and count. -/
def outMatches (o : MarkOut) (s : MarkSubmission) : Prop :=
  o.action_id = s.action_id ∧ o.time_seconds = s.time_seconds ∧
    o.is_failure = s.is_failure.getD false ∧ o.count = s.count.getD 1

/-- The id-independent content of a returned mark. -/
def outKey (o : MarkOut) : Nat × Int × Bool × Nat :=
  (o.action_id, o.time_seconds, o.is_failure, o.count)

/-- The content a submission turns into, defaults applied. -/
def subKey (s : MarkSubmission) : Nat × Int × Bool × Nat :=
  (s.action_id, s.time_seconds, s.is_failure.getD false, s.count.getD 1)

/-! ### Concrete fixtures used by the witnesses -/

/-- Fixture: a 10-point action. -/
def act1 : Action :=
  { id := 1, code := "SHOT", name := "Shot", points := 10, ordering := 0 }

/-- Fixture: a 3-point action. -/
def act2 : Action :=
  { id := 2, code := "PASS", name := "Pass", points := 3, ordering := 1 }

/-- Fixture: one event. -/
def ev1 : Event :=
  { id := 1, name := "Open", date := { year := 2026, month := 3, day := 14 } }

/-- Fixture: one video. -/
def vid1 : Video :=
  { id := 1, event_id := 1, filename := "m.mp4", file_path := "2026/03/14/ab.mp4",
    file_size_bytes := 20 }

/-- Fixture: the analysis whose marks get replaced. -/
def an1 : Analysis :=
  { id := 1, event_id := 1, video_id := 1, team := "Red", matchLabel := "Q1" }

/-- Fixture: a second analysis on the same video. -/
def an2 : Analysis :=
  { id := 2, event_id := 1, video_id := 1, team := "Blue", matchLabel := "Q1" }

/-- Fixture: a pre-existing mark of analysis 2. -/
def markB : Mark :=
  { id := 7, analysis_id := 2, action_id := 1, time_seconds := 50000,
    delta_seconds := 50000, is_failure := false, count := 1 }

/-- Fixture: a pre-existing mark of analysis 1. -/
def markA : Mark :=
  { id := 8, analysis_id := 1, action_id := 2, time_seconds := 10000,
    delta_seconds := 10000, is_failure := false, count := 2 }

/-- Fixture: the first of the two submissions tied at 3.0s. -/
def tieX : MarkSubmission :=
  { action_id := 1, time_seconds := 30000, is_failure := some true, count := none }

/-- Fixture: the second of the two submissions tied at 3.0s. -/
def tieY : MarkSubmission :=
  { action_id := 2, time_seconds := 30000, is_failure := none, count := some 2 }

/-- Fixture: a failed mark with a count bigger than one. -/
def failMark0 : Mark :=
  { id := 20, analysis_id := 1, action_id := 1, time_seconds := 70000,
    delta_seconds := 0, is_failure := true, count := 2 }

/-- Fixture store. -/
def db0 : DB :=
  { events := [ev1], videos := [vid1], actions := [act1, act2], analyses := [an1, an2],
    marks := [markA, markB], next_video_id := 2, next_mark_id := 9 }

/-- Fixture submission: spec §8's example, in ten-thousandths of a second
(12.5s shot, then a failed shot and a double pass tied at 3.0s). -/
def subs0 : List MarkSubmission :=
  [ { action_id := 1, time_seconds := 125000, is_failure := none, count := none },
    { action_id := 1, time_seconds := 30000, is_failure := some true, count := none },
    { action_id := 2, time_seconds := 30000, is_failure := none, count := some 2 } ]

/-- The marks payload `saveMarks db0 1 subs0` returns. -/
def savedOut0 : List MarkOut :=
  [ { id := 9, action_id := 1, action_code := "SHOT", time_seconds := 30000,
      delta_seconds := 30000, is_failure := true, count := 1 },
    { id := 10, action_id := 2, action_code := "PASS", time_seconds := 30000,
      delta_seconds := 0, is_failure := false, count := 2 },
    { id := 11, action_id := 1, action_code := "SHOT", time_seconds := 125000,
      delta_seconds := 95000, is_failure := false, count := 1 } ]

/-- The store `saveMarks db0 1 subs0` leaves behind. -/
def savedDB0 : DB :=
  { events := [ev1], videos := [vid1], actions := [act1, act2], analyses := [an1, an2],
    marks :=
      [ markB,
        { id := 9, analysis_id := 1, action_id := 1, time_seconds := 30000,
          delta_seconds := 30000, is_failure := true, count := 1 },
        { id := 10, analysis_id := 1, action_id := 2, time_seconds := 30000,
          delta_seconds := 0, is_failure := false, count := 2 },
        { id := 11, analysis_id := 1, action_id := 1, time_seconds := 125000,
          delta_seconds := 95000, is_failure := false, count := 1 } ],
    next_video_id := 2, next_mark_id := 12 }

/-- Fixture bytes: a minimal QuickTime header (`ftyp` at offset 4, brand
`qt  `). -/
def movBytes : List Nat :=
  [0x00, 0x00, 0x00, 0x14, 0x66, 0x74, 0x79, 0x70, 0x71, 0x74, 0x20, 0x20]

/-- Fixture bytes: too short to be sniffed. -/
def shortBytes : List Nat := [0x66, 0x74]

/-- Fixture bytes: an `ftyp` box found at offset 8 with brand `isom`. -/
def isomBytes : List Nat :=
  [0x00, 0x00, 0x00, 0x01, 0x00, 0x00, 0x00, 0x10,
   0x66, 0x74, 0x79, 0x70, 0x69, 0x73, 0x6f, 0x6d]

/-- Fixture upload request. -/
def upReq1 : UploadRequest := { video := some movBytes, filename := "clip one" }

/-- Fixture upload request with the same bytes but another display name. -/
def upReq2 : UploadRequest := { video := some movBytes, filename := "clip two" }

/-- Fixture hash primitive for the witnesses. -/
def sha0 : List Nat → String := fun _ => "deadbeef"

/-! ### Helper lemmas about the replacement pipeline -/

theorem bulkCreate_analysis_id {aid : Nat} {ws : List (MarkSubmission × Int)} :
    ∀ {start : Nat}, ∀ m ∈ bulkCreate aid start ws, m.analysis_id = aid := by
  induction ws with
  | nil => intro start m hm; simp [bulkCreate] at hm
  | cons md rest ih =>
    intro start m hm
    simp only [bulkCreate, List.mem_cons] at hm
    rcases hm with rfl | hm
    · rfl
    · exact ih m hm

theorem filter_not_filter (p : Mark → Bool) (l : List Mark) :
    (l.filter (fun m => !(p m))).filter p = [] := by
  induction l with
  | nil => rfl
  | cons m rest ih =>
    by_cases h : p m <;> simp [List.filter_cons, h, ih]

/-- After a replacement, the analysis's stored marks are exactly the
bulk-created rows. -/
theorem marksOf_replaceMarks (db : DB) (aid : Nat) (l : List MarkSubmission) :
    marksOf (replaceMarks db aid l) aid =
      bulkCreate aid db.next_mark_id (computeDeltas 0 (List.insertionSort subLE l)) := by
  unfold marksOf replaceMarks
  rw [List.filter_append, filter_not_filter, List.nil_append, List.filter_eq_self.mpr]
  intro m hm
  simpa using bulkCreate_analysis_id m hm

theorem filter_bid_of_filter_ne {aid bid : Nat} (h : bid ≠ aid) (l : List Mark) :
    (l.filter (fun m => !(m.analysis_id == aid))).filter (fun m => m.analysis_id == bid) =
      l.filter (fun m => m.analysis_id == bid) := by
  induction l with
  | nil => rfl
  | cons m rest ih =>
    by_cases hm : m.analysis_id = aid
    · simp [List.filter_cons, hm, Ne.symm h, ih]
    · by_cases hb : m.analysis_id = bid <;> simp [List.filter_cons, hm, hb, h, ih]

/-- A replacement for analysis `aid` leaves every other analysis's marks
untouched. -/
theorem marksOf_replaceMarks_ne (db : DB) {aid bid : Nat} (l : List MarkSubmission)
    (h : bid ≠ aid) :
    marksOf (replaceMarks db aid l) bid = marksOf db bid := by
  unfold marksOf replaceMarks
  rw [List.filter_append]
  have h2 : (bulkCreate aid db.next_mark_id
      (computeDeltas 0 (List.insertionSort subLE l))).filter
        (fun m => m.analysis_id == bid) = [] := by
    rw [List.filter_eq_nil_iff]
    intro m hm
    have := bulkCreate_analysis_id m hm
    simp [this, Ne.symm h]
  rw [h2, List.append_nil, filter_bid_of_filter_ne h]

theorem replaceMarks_events (db : DB) (aid : Nat) (l : List MarkSubmission) :
    (replaceMarks db aid l).events = db.events := rfl

theorem replaceMarks_videos (db : DB) (aid : Nat) (l : List MarkSubmission) :
    (replaceMarks db aid l).videos = db.videos := rfl

theorem replaceMarks_actions (db : DB) (aid : Nat) (l : List MarkSubmission) :
    (replaceMarks db aid l).actions = db.actions := rfl

theorem replaceMarks_analyses (db : DB) (aid : Nat) (l : List MarkSubmission) :
    (replaceMarks db aid l).analyses = db.analyses := rfl

theorem computeDeltas_fst (p : Int) (l : List MarkSubmission) :
    (computeDeltas p l).map Prod.fst = l := by
  induction l generalizing p with
  | nil => rfl
  | cons m rest ih => simp [computeDeltas, ih]

theorem bulkCreate_map_time (aid : Nat) (ws : List (MarkSubmission × Int)) :
    ∀ start, (bulkCreate aid start ws).map Mark.time_seconds =
      ws.map (fun md => md.1.time_seconds) := by
  induction ws with
  | nil => intro _; rfl
  | cons md rest ih => intro start; simp [bulkCreate, mkMark, ih]

theorem pairwise_computeDeltas {l : List MarkSubmission} (h : l.Pairwise subLE) (p : Int) :
    (computeDeltas p l).Pairwise (fun a b => a.1.time_seconds ≤ b.1.time_seconds) := by
  have h2 : ((computeDeltas p l).map Prod.fst).Pairwise subLE := by
    rw [computeDeltas_fst]; exact h
  exact (List.pairwise_map (f := Prod.fst)).mp h2

theorem pairwise_markLE_bulkCreate {aid : Nat} {ws : List (MarkSubmission × Int)}
    (h : ws.Pairwise (fun a b => a.1.time_seconds ≤ b.1.time_seconds)) :
    ∀ start, (bulkCreate aid start ws).Pairwise markLE := by
  induction ws with
  | nil => intro _; exact List.Pairwise.nil
  | cons md rest ih =>
    intro start
    rcases List.pairwise_cons.mp h with ⟨h1, h2⟩
    refine List.Pairwise.cons ?_ (ih h2 (start + 1))
    intro m hm
    have hmem : m.time_seconds ∈ rest.map (fun md => md.1.time_seconds) := by
      rw [← bulkCreate_map_time aid rest (start + 1)]
      exact List.mem_map_of_mem _ hm
    rcases List.mem_map.mp hmem with ⟨md', hmd', ht⟩
    show (mkMark aid start md).time_seconds ≤ m.time_seconds
    rw [← ht]
    exact h1 md' hmd'

/-- When the stored marks of an analysis are already in time order, the
`order_by` re-read returns them as stored. -/
theorem viewMarks_of_sorted {db : DB} {aid : Nat} (h : (marksOf db aid).Pairwise markLE) :
    viewMarks db aid = (marksOf db aid).map (markOut db) := by
  unfold viewMarks
  rw [List.Sorted.insertionSort_eq h]

/-- Inversion of the success path of `saveMarks`. -/
theorem saveMarks_ok_inv {db : DB} {aid : Nat} {body : SaveBody} {out : List MarkOut}
    {db' : DB} (h : saveMarks db aid body = (.ok out, db')) :
    ∃ marks_data, bodyMarks body = some marks_data ∧
      db' = replaceMarks db aid marks_data ∧ out = viewMarks db' aid := by
  unfold saveMarks at h
  split at h
  · exact absurd h (by simp)
  · split at h
    · exact absurd h (by simp)
    · rename_i marks_data heq
      split at h
      · exact absurd h (by simp)
      · injection h with h1 h2
        injection h1 with h1
        exact ⟨marks_data, heq, h2.symm, by rw [← h2]; exact h1.symm⟩

theorem sortedByTime_map_markOut {db : DB} {nm : List Mark} (h : nm.Pairwise markLE) :
    sortedByTime (nm.map (markOut db)) := by
  unfold sortedByTime
  exact (List.pairwise_map (f := markOut db)).mpr h

theorem deltasFrom_pipeline (db : DB) (aid : Nat) :
    ∀ (l : List MarkSubmission) (p : Int) (start : Nat),
      deltasFrom p ((bulkCreate aid start (computeDeltas p l)).map (markOut db)) := by
  intro l
  induction l with
  | nil => intro p start; trivial
  | cons m rest ih => intro p start; exact ⟨rfl, ih m.time_seconds (start + 1)⟩

/-- Shared helper: saving an explicit empty list succeeds, deletes the
analysis's marks, creates none, and returns the empty payload. -/
theorem saveMarks_empty_eq (db : DB) (aid : Nat) (a : Analysis)
    (hA : analysisOf db aid = some a) :
    saveMarks db aid (.marksList []) =
      (.ok [], { db with marks := db.marks.filter (fun m => !(m.analysis_id == aid)) }) := by
  have hrep : replaceMarks db aid [] =
      { db with marks := db.marks.filter (fun m => !(m.analysis_id == aid)) } := by
    unfold replaceMarks
    simp [bulkCreate, computeDeltas, List.insertionSort]
  have hview : viewMarks (replaceMarks db aid []) aid = [] := by
    rw [hrep]
    unfold viewMarks marksOf
    rw [show ({ db with marks := db.marks.filter (fun m => !(m.analysis_id == aid)) } :
        DB).marks = db.marks.filter (fun m => !(m.analysis_id == aid)) from rfl]
    rw [filter_not_filter]
    rfl
  simp only [saveMarks, hA, bodyMarks]
  rw [if_neg (by simp [submittedActionIds]), hview, hrep]

theorem bulkCreate_map_delta (aid : Nat) (ws : List (MarkSubmission × Int)) :
    ∀ start, (bulkCreate aid start ws).map Mark.delta_seconds = ws.map Prod.snd := by
  induction ws with
  | nil => intro _; rfl
  | cons md rest ih => intro start; simp [bulkCreate, mkMark, ih]

theorem map_delta_markOut (db : DB) (nm : List Mark) :
    (nm.map (markOut db)).map MarkOut.delta_seconds = nm.map Mark.delta_seconds := by
  induction nm with
  | nil => rfl
  | cons m rest ih => simp [markOut, ih]

/-- Row ids do not enter `Mark.points`. -/
theorem map_points_bulkCreate (db : DB) (aid : Nat) (ws : List (MarkSubmission × Int)) :
    ∀ start, (bulkCreate aid start ws).map (Mark.points db) =
      ws.map (fun md => Mark.points db (mkMark aid 0 md)) := by
  induction ws with
  | nil => intro _; rfl
  | cons md rest ih =>
    intro start
    exact congrArg₂ List.cons rfl (ih (start + 1))

/-- `Mark.points` reads only the `Action` table of the store. -/
theorem points_eq_of_actions_eq {db1 db2 : DB} (h : db1.actions = db2.actions) (m : Mark) :
    Mark.points db1 m = Mark.points db2 m := by
  unfold Mark.points actionOf
  rw [h]

/-- A two-element sublist of a mapped list comes from a two-element
sublist of the original. -/
theorem pair_sublist_map {α β : Type} (f : α → β) {l : List α} {u v : β}
    (h : [u, v].Sublist (l.map f)) :
    ∃ a b, [a, b].Sublist l ∧ f a = u ∧ f b = v := by
  rcases List.sublist_map_iff.mp h with ⟨l', hl', he⟩
  cases l' with
  | nil => simp at he
  | cons a t =>
    cases t with
    | nil => simp at he
    | cons b t2 =>
      cases t2 with
      | cons c t3 => simp at he
      | nil =>
        simp only [List.map_cons, List.map_nil, List.cons.injEq, and_true] at he
        exact ⟨a, b, hl', he.1.symm, he.2.symm⟩

theorem outMatches_of_key {o : MarkOut} {s : MarkSubmission} (h : outKey o = subKey s) :
    outMatches o s := by
  unfold outKey subKey at h
  simpa [outMatches, Prod.ext_iff] using h

/-- The id-independent content of the response is the sorted submissions'
content, defaults applied. -/
theorem map_outKey_pipeline (db : DB) (aid : Nat) :
    ∀ (l : List MarkSubmission) (p : Int) (start : Nat),
      ((bulkCreate aid start (computeDeltas p l)).map (markOut db)).map outKey =
        l.map subKey := by
  intro l
  induction l with
  | nil => intro p start; rfl
  | cons m rest ih =>
    intro p start
    exact congrArg₂ List.cons rfl (ih m.time_seconds (start + 1))

/-! ### Claim theorems -/

/-- C1: For every submitted mark list accepted by the save-marks endpoint,
the returned marks are sorted by `time_seconds` ascending, and each
returned mark's `delta_seconds` equals its `time_seconds` minus the
previous returned mark's `time_seconds`, with the first mark's delta equal
to its `time_seconds` minus zero. -/
theorem save_marks_sorted_and_deltas (db : DB) (aid : Nat) (l : List MarkSubmission)
    (out : List MarkOut) (db' : DB)
    (h : saveMarks db aid (.marksList l) = (.ok out, db')) :
    sortedByTime out ∧ deltasFrom 0 out := by
  obtain ⟨md, hmd, hdb, hout⟩ := saveMarks_ok_inv h
  obtain rfl : l = md := Option.some.inj hmd
  subst hdb
  have hmarks := marksOf_replaceMarks db aid l
  have hsort : (marksOf (replaceMarks db aid l) aid).Pairwise markLE := by
    rw [hmarks]
    exact pairwise_markLE_bulkCreate
      (pairwise_computeDeltas (List.sorted_insertionSort subLE l) 0) _
  rw [hout, viewMarks_of_sorted hsort]
  refine ⟨sortedByTime_map_markOut hsort, ?_⟩
  rw [hmarks]
  exact deltasFrom_pipeline _ _ _ _ _

/-- C1 witness: the concrete run on the fixture store. -/
theorem save_marks_sorted_and_deltas_witness :
    saveMarks db0 1 (.marksList subs0) = (.ok savedOut0, savedDB0) ∧
      (sortedByTime savedOut0 ∧ deltasFrom 0 savedOut0) :=
  ⟨by decide, save_marks_sorted_and_deltas db0 1 subs0 savedOut0 savedDB0 (by decide)⟩

/-- C2: For every submitted mark list in which at least one mark references
an action id that does not exist, the save-marks endpoint rejects the whole
batch with a 400 client-error response, and the analysis's persisted mark
set — indeed the whole store — is left completely unchanged. -/
theorem save_marks_rejects_unknown_action (db : DB) (aid : Nat) (l : List MarkSubmission)
    (m : MarkSubmission) (hA : (analysisOf db aid).isSome = true) (hm : m ∈ l)
    (hbad : ∀ a ∈ db.actions, a.id ≠ m.action_id) :
    saveMarks db aid (.marksList l) = (.badRequest "Invalid action ID", db) := by
  obtain ⟨a, hA⟩ := Option.isSome_iff_exists.mp hA
  have hmem : m.action_id ∈ submittedActionIds l :=
    List.mem_toFinset.mpr (List.mem_map_of_mem _ hm)
  have hnx : m.action_id ∉ existingActionIds db (submittedActionIds l) := by
    intro hx
    rcases List.mem_map.mp (List.mem_toFinset.mp hx) with ⟨a', ha', he⟩
    exact hbad a' (List.mem_filter.mp ha').1 he
  simp only [saveMarks, hA, bodyMarks]
  rw [if_pos]
  exact ⟨Finset.ne_empty_of_mem hmem, fun he => hnx (he ▸ hmem)⟩

/-- C2 witness: submitting a mark that references action id 5 (which does
not exist in the fixture store) is rejected and the store is unchanged. -/
theorem save_marks_rejects_unknown_action_witness :
    (analysisOf db0 1).isSome = true ∧
      saveMarks db0 1 (.marksList
          [{ action_id := 5, time_seconds := 10000, is_failure := none, count := none }]) =
        (.badRequest "Invalid action ID", db0) :=
  ⟨by decide,
    save_marks_rejects_unknown_action db0 1
      [{ action_id := 5, time_seconds := 10000, is_failure := none, count := none }]
      { action_id := 5, time_seconds := 10000, is_failure := none, count := none }
      (by decide) (by decide) (by decide)⟩

/-- C3: `Mark.points` is a pure function of stored fields: it returns zero
when `is_failure` is set, regardless of `count`, and otherwise the
referenced action's integer point value multiplied by the mark's count. -/
theorem mark_points_spec (db : DB) (m : Mark) (a : Action)
    (ha : actionOf db m.action_id = some a) :
    Mark.points db m = if m.is_failure then 0 else a.points * (m.count : Int) := by
  unfold Mark.points
  rw [ha]

/-- C3 witness: a failed mark with count 2 scores 0; doubling a 3-point
pass scores 6. -/
theorem mark_points_spec_witness :
    actionOf db0 markA.action_id = some act2 ∧
      Mark.points db0 markA =
        (if markA.is_failure then 0 else act2.points * (markA.count : Int)) ∧
      actionOf db0 failMark0.action_id = some act1 ∧
      Mark.points db0 failMark0 =
        (if failMark0.is_failure then 0 else act1.points * (failMark0.count : Int)) :=
  ⟨by decide, mark_points_spec db0 markA act2 (by decide), by decide,
    mark_points_spec db0 failMark0 act1 (by decide)⟩

/-- C4: Submitting an empty mark list to the save-marks endpoint is
accepted, deletes every previously persisted mark of that analysis,
creates no new marks, and returns an empty mark list. -/
theorem save_marks_empty_list (db : DB) (aid : Nat)
    (hA : (analysisOf db aid).isSome = true) :
    saveMarks db aid (.marksList []) =
      (.ok [], { db with marks := db.marks.filter (fun m => !(m.analysis_id == aid)) }) := by
  obtain ⟨a, hA⟩ := Option.isSome_iff_exists.mp hA
  exact saveMarks_empty_eq db aid a hA

/-- C4 witness: saving `[]` on the fixture store wipes analysis 1's marks
and returns the empty payload. -/
theorem save_marks_empty_list_witness :
    (analysisOf db0 1).isSome = true ∧
      saveMarks db0 1 (.marksList []) =
        (.ok [], { db0 with marks := db0.marks.filter (fun m => !(m.analysis_id == 1)) }) :=
  ⟨by decide, save_marks_empty_list db0 1 (by decide)⟩

/-- C10: A save-marks request whose body is valid JSON but has no `marks`
key is treated exactly like an explicit empty mark list: the two requests
compute the same response and post-state, the request succeeds, deletes
every persisted mark of the analysis, and returns an empty list. -/
theorem save_marks_missing_key (db : DB) (aid : Nat)
    (hA : (analysisOf db aid).isSome = true) :
    saveMarks db aid .noMarksKey = saveMarks db aid (.marksList []) ∧
      saveMarks db aid .noMarksKey =
        (.ok [], { db with marks := db.marks.filter (fun m => !(m.analysis_id == aid)) }) := by
  obtain ⟨a, hA⟩ := Option.isSome_iff_exists.mp hA
  have heq : saveMarks db aid .noMarksKey = saveMarks db aid (.marksList []) := rfl
  exact ⟨heq, heq.trans (saveMarks_empty_eq db aid a hA)⟩

/-- C10 witness: the key-less body on the fixture store. -/
theorem save_marks_missing_key_witness :
    (analysisOf db0 1).isSome = true ∧
      (saveMarks db0 1 .noMarksKey = saveMarks db0 1 (.marksList []) ∧
        saveMarks db0 1 .noMarksKey =
          (.ok [], { db0 with marks := db0.marks.filter (fun m => !(m.analysis_id == 1)) })) :=
  ⟨by decide, save_marks_missing_key db0 1 (by decide)⟩

/-- C9: Saving marks for one analysis touches only that analysis's marks:
the Event, Video, Action and Analysis tables are unchanged, and every
other analysis keeps exactly its persisted marks. -/
theorem save_marks_frame (db : DB) (aid : Nat) (body : SaveBody) (bid : Nat)
    (hne : bid ≠ aid) :
    (saveMarks db aid body).2.events = db.events ∧
    (saveMarks db aid body).2.videos = db.videos ∧
    (saveMarks db aid body).2.actions = db.actions ∧
    (saveMarks db aid body).2.analyses = db.analyses ∧
    marksOf (saveMarks db aid body).2 bid = marksOf db bid := by
  unfold saveMarks
  split
  · exact ⟨rfl, rfl, rfl, rfl, rfl⟩
  · split
    · exact ⟨rfl, rfl, rfl, rfl, rfl⟩
    · rename_i marks_data heq
      split
      · exact ⟨rfl, rfl, rfl, rfl, rfl⟩
      · exact ⟨replaceMarks_events db aid marks_data, replaceMarks_videos db aid marks_data,
          replaceMarks_actions db aid marks_data, replaceMarks_analyses db aid marks_data,
          marksOf_replaceMarks_ne db marks_data hne⟩

/-- C9 witness: replacing analysis 1's marks leaves analysis 2's mark and
all other tables of the fixture store intact. -/
theorem save_marks_frame_witness :
    (2 : Nat) ≠ 1 ∧
      ((saveMarks db0 1 (.marksList subs0)).2.events = db0.events ∧
       (saveMarks db0 1 (.marksList subs0)).2.videos = db0.videos ∧
       (saveMarks db0 1 (.marksList subs0)).2.actions = db0.actions ∧
       (saveMarks db0 1 (.marksList subs0)).2.analyses = db0.analyses ∧
       marksOf (saveMarks db0 1 (.marksList subs0)).2 2 = marksOf db0 2) :=
  ⟨by decide, save_marks_frame db0 1 (.marksList subs0) 2 (by decide)⟩

/-- C5: Saving the same mark list twice in a row to the same analysis
yields the same computed `delta_seconds` values in the response and the
same total points over the persisted marks, both times (row ids may
differ). -/
theorem save_marks_idempotent (db : DB) (aid : Nat) (l : List MarkSubmission)
    (out1 out2 : List MarkOut) (db1 db2 : DB)
    (h1 : saveMarks db aid (.marksList l) = (.ok out1, db1))
    (h2 : saveMarks db1 aid (.marksList l) = (.ok out2, db2)) :
    out1.map MarkOut.delta_seconds = out2.map MarkOut.delta_seconds ∧
      totalPoints db1 aid = totalPoints db2 aid := by
  obtain ⟨md1, hmd1, hdb1, hout1⟩ := saveMarks_ok_inv h1
  obtain rfl : l = md1 := Option.some.inj hmd1
  obtain ⟨md2, hmd2, hdb2, hout2⟩ := saveMarks_ok_inv h2
  obtain rfl : l = md2 := Option.some.inj hmd2
  subst hdb1
  subst hdb2
  have hsortw : (computeDeltas 0 (List.insertionSort subLE l)).Pairwise
      (fun a b => a.1.time_seconds ≤ b.1.time_seconds) :=
    pairwise_computeDeltas (List.sorted_insertionSort subLE l) 0
  have hm1 := marksOf_replaceMarks db aid l
  have hm2 := marksOf_replaceMarks (replaceMarks db aid l) aid l
  have hs1 : (marksOf (replaceMarks db aid l) aid).Pairwise markLE := by
    rw [hm1]; exact pairwise_markLE_bulkCreate hsortw _
  have hs2 : (marksOf (replaceMarks (replaceMarks db aid l) aid l) aid).Pairwise markLE := by
    rw [hm2]; exact pairwise_markLE_bulkCreate hsortw _
  constructor
  · rw [hout1, hout2, viewMarks_of_sorted hs1, viewMarks_of_sorted hs2,
      map_delta_markOut, map_delta_markOut, hm1, hm2,
      bulkCreate_map_delta, bulkCreate_map_delta]
  · unfold totalPoints
    rw [hm1, hm2, map_points_bulkCreate, map_points_bulkCreate]
    refine congrArg List.sum (List.map_congr_left ?_)
    intro md _
    exact points_eq_of_actions_eq (by rw [replaceMarks_actions, replaceMarks_actions,
      replaceMarks_actions]) _

/-- C5 witness: the double save of the fixture submission. -/
theorem save_marks_idempotent_witness :
    saveMarks db0 1 (.marksList subs0) = (.ok savedOut0, savedDB0) ∧
      saveMarks savedDB0 1 (.marksList subs0) =
        (.ok (savedOut0.map (fun m => { m with id := m.id + 3 })),
          (saveMarks savedDB0 1 (.marksList subs0)).2) ∧
      (savedOut0.map MarkOut.delta_seconds =
          (savedOut0.map (fun m => { m with id := m.id + 3 })).map MarkOut.delta_seconds ∧
        totalPoints savedDB0 1 = totalPoints (saveMarks savedDB0 1 (.marksList subs0)).2 1) :=
  ⟨by decide, by decide,
    save_marks_idempotent db0 1 subs0 savedOut0
      (savedOut0.map (fun m => { m with id := m.id + 3 })) savedDB0
      (saveMarks savedDB0 1 (.marksList subs0)).2 (by decide) (by decide)⟩

/-- C6: For every submitted mark list containing marks with equal time
positions, the save-marks endpoint keeps those tied marks in their
original submission order in the returned (and persisted) result: the
sort is stable. -/
theorem save_marks_stable_ties (db : DB) (aid : Nat) (l : List MarkSubmission)
    (out : List MarkOut) (db' : DB) (x y : MarkSubmission)
    (h : saveMarks db aid (.marksList l) = (.ok out, db'))
    (hsub : [x, y].Sublist l) (ht : x.time_seconds = y.time_seconds) :
    ∃ ox oy, [ox, oy].Sublist out ∧ outMatches ox x ∧ outMatches oy y := by
  obtain ⟨md, hmd, hdb, hout⟩ := saveMarks_ok_inv h
  obtain rfl : l = md := Option.some.inj hmd
  subst hdb
  have hsorted : [x, y].Sublist (List.insertionSort subLE l) :=
    List.pair_sublist_insertionSort (le_of_eq ht) hsub
  have hmarks := marksOf_replaceMarks db aid l
  have hsort : (marksOf (replaceMarks db aid l) aid).Pairwise markLE := by
    rw [hmarks]
    exact pairwise_markLE_bulkCreate
      (pairwise_computeDeltas (List.sorted_insertionSort subLE l) 0) _
  have hkey : out.map outKey = (List.insertionSort subLE l).map subKey := by
    rw [hout, viewMarks_of_sorted hsort, hmarks]
    exact map_outKey_pipeline _ _ _ _ _
  have hsubkey : [subKey x, subKey y].Sublist (out.map outKey) := by
    rw [hkey]
    exact List.Sublist.map subKey hsorted
  obtain ⟨ox, oy, hoxy, hex, hey⟩ := pair_sublist_map outKey hsubkey
  exact ⟨ox, oy, hoxy, outMatches_of_key hex, outMatches_of_key hey⟩

/-- C6 witness: the two fixture marks tied at 3.0s come back in submission
order (the failed shot first, then the double pass). -/
theorem save_marks_stable_ties_witness :
    saveMarks db0 1 (.marksList subs0) = (.ok savedOut0, savedDB0) ∧
      [tieX, tieY].Sublist subs0 ∧ tieX.time_seconds = tieY.time_seconds ∧
      (∃ ox oy, [ox, oy].Sublist savedOut0 ∧ outMatches ox tieX ∧ outMatches oy tieY) :=
  ⟨by decide, by decide, by decide,
    save_marks_stable_ties db0 1 subs0 savedOut0 savedDB0 tieX tieY
      (by decide) (by decide) (by decide)⟩

/-- C7: Over all uploaded byte strings: anything shorter than 12 bytes is
rejected; a `ftyp` box found at offset 4 is detected as `mov` exactly when
its brand is `qt  ` and as `mp4` for any other brand; the same holds for a
`ftyp` box found at offset 8 (the offsets are scanned in order 4 then 8,
so the offset-8 clause applies when offset 4 carries no `ftyp` tag; a valid
box at offset 8 carries its brand in bytes 12-16, hence the length bound). -/
theorem validate_video_ftyp_spec (file_content : List Nat) :
    (file_content.length < 12 → _validate_video_file file_content = (false, none)) ∧
    (12 ≤ file_content.length →
      slice (file_content.take 32) 4 8 = ftypBytes →
      _validate_video_file file_content =
        (true, some (if slice (file_content.take 32) 8 12 = qtBrand then "mov" else "mp4"))) ∧
    (16 ≤ file_content.length →
      slice (file_content.take 32) 4 8 ≠ ftypBytes →
      slice (file_content.take 32) 8 12 = ftypBytes →
      _validate_video_file file_content =
        (true, some (if slice (file_content.take 32) 12 16 = qtBrand then "mov" else "mp4"))) := by
  refine ⟨fun h => ?_, fun h12 hf => ?_, fun h16 hnf hf8 => ?_⟩
  · unfold _validate_video_file
    rw [if_pos h]
  · have hlen : (file_content.take 32).length > 4 + 4 := by
      rw [List.length_take]; omega
    simp only [_validate_video_file]
    rw [if_neg (by omega), if_pos ⟨hlen, hf⟩]
  · have hlen : (file_content.take 32).length > 8 + 4 := by
      rw [List.length_take]; omega
    simp only [_validate_video_file]
    rw [if_neg (by omega), if_neg (fun hc => hnf hc.2), if_pos ⟨hlen, hf8⟩]

/-- C7 witness: the three fixture byte strings — a `qt  `-branded box gives
`mov`, an `isom`-branded box at offset 8 gives `mp4`, and a 2-byte string
is rejected. -/
theorem validate_video_ftyp_spec_witness :
    (shortBytes.length < 12 ∧ _validate_video_file shortBytes = (false, none)) ∧
    (12 ≤ movBytes.length ∧ slice (movBytes.take 32) 4 8 = ftypBytes ∧
      _validate_video_file movBytes =
        (true, some (if slice (movBytes.take 32) 8 12 = qtBrand then "mov" else "mp4"))) ∧
    (16 ≤ isomBytes.length ∧ slice (isomBytes.take 32) 4 8 ≠ ftypBytes ∧
      slice (isomBytes.take 32) 8 12 = ftypBytes ∧
      _validate_video_file isomBytes =
        (true, some (if slice (isomBytes.take 32) 12 16 = qtBrand then "mov" else "mp4"))) :=
  ⟨⟨by decide, (validate_video_ftyp_spec shortBytes).1 (by decide)⟩,
   ⟨by decide, by decide,
     (validate_video_ftyp_spec movBytes).2.1 (by decide) (by decide)⟩,
   ⟨by decide, by decide, by decide,
     (validate_video_ftyp_spec isomBytes).2.2 (by decide) (by decide) (by decide)⟩⟩

/-- C8: Two accepted uploads with byte-identical content get the same
computed storage file path (date directory, content hash, detected
extension), while each upload appends its own distinct `Video` row
carrying its own display filename.  `sha256_hex` is the hash primitive,
universally quantified: the path depends on nothing but the event's date
and the bytes. -/
theorem upload_content_addressed (sha256_hex : List Nat → String) (db : DB) (eid : Nat)
    (req1 req2 : UploadRequest) (content : List Nat)
    (h1v : req1.video = some content) (h2v : req2.video = some content)
    (hev : (eventOf db eid).isSome = true)
    (hf1 : pyStrip req1.filename ≠ "") (hf2 : pyStrip req2.filename ≠ "")
    (hval : (_validate_video_file content).1 = true) :
    ∃ v1 v2,
      (video_upload sha256_hex db eid req1).2.videos = db.videos ++ [v1] ∧
      (video_upload sha256_hex (video_upload sha256_hex db eid req1).2 eid req2).2.videos =
        db.videos ++ [v1, v2] ∧
      v1.file_path = v2.file_path ∧ v1.id ≠ v2.id ∧
      v1.filename = pyStrip req1.filename ∧ v2.filename = pyStrip req2.filename := by
  obtain ⟨ev, hev'⟩ := Option.isSome_iff_exists.mp hev
  have hrun : ∀ (d : DB), eventOf d eid = some ev → ∀ (r : UploadRequest),
      r.video = some content → pyStrip r.filename ≠ "" →
      video_upload sha256_hex d eid r =
        (.ok d.next_video_id ("/events/" ++ toString eid),
          { d with
            videos := d.videos ++
              [{ id := d.next_video_id, event_id := eid, filename := pyStrip r.filename,
                 file_path := datePath ev.date ++ "/" ++ (sha256_hex content ++ "." ++
                   (_validate_video_file content).2.getD ""),
                 file_size_bytes := content.length }],
            next_video_id := d.next_video_id + 1 }) := by
    intro d hd r hr hf
    simp only [video_upload, hd, hr]
    rw [if_neg hf, if_neg (by simp [hval])]
  have hev2 : eventOf { db with
      videos := db.videos ++
        [{ id := db.next_video_id, event_id := eid, filename := pyStrip req1.filename,
           file_path := datePath ev.date ++ "/" ++ (sha256_hex content ++ "." ++
             (_validate_video_file content).2.getD ""),
           file_size_bytes := content.length }],
      next_video_id := db.next_video_id + 1 } eid = some ev := hev'
  have e1 := hrun db hev' req1 h1v hf1
  have e2 := hrun _ hev2 req2 h2v hf2
  refine ⟨{ id := db.next_video_id, event_id := eid, filename := pyStrip req1.filename,
            file_path := datePath ev.date ++ "/" ++ (sha256_hex content ++ "." ++
              (_validate_video_file content).2.getD ""),
            file_size_bytes := content.length },
          { id := db.next_video_id + 1, event_id := eid, filename := pyStrip req2.filename,
            file_path := datePath ev.date ++ "/" ++ (sha256_hex content ++ "." ++
              (_validate_video_file content).2.getD ""),
            file_size_bytes := content.length },
          ?_, ?_, rfl, by show db.next_video_id ≠ db.next_video_id + 1; omega, rfl, rfl⟩
  · rw [e1]
  · rw [e1, e2]
    simp

/-- C8 witness: uploading the fixture QuickTime bytes twice with two
display names. -/
theorem upload_content_addressed_witness :
    (upReq1.video = some movBytes ∧ upReq2.video = some movBytes ∧
      (eventOf db0 1).isSome = true ∧ pyStrip upReq1.filename ≠ "" ∧
      pyStrip upReq2.filename ≠ "" ∧ (_validate_video_file movBytes).1 = true) ∧
    (∃ v1 v2,
      (video_upload sha0 db0 1 upReq1).2.videos = db0.videos ++ [v1] ∧
      (video_upload sha0 (video_upload sha0 db0 1 upReq1).2 1 upReq2).2.videos =
        db0.videos ++ [v1, v2] ∧
      v1.file_path = v2.file_path ∧ v1.id ≠ v2.id ∧
      v1.filename = pyStrip upReq1.filename ∧ v2.filename = pyStrip upReq2.filename) :=
  ⟨⟨rfl, rfl, by decide, by decide, by decide, by decide⟩,
    upload_content_addressed sha0 db0 1 upReq1 upReq2 movBytes rfl rfl (by decide)
      (by decide) (by decide) (by decide)⟩

end Hardfall
